import Mathlib

/-!
Verification of the practice engine of MacOS-Native-Hotkey-Trainer.

Python strings are modelled as `List Char` (the sources only ever handle
ASCII key tokens), file contents as `List Char`, and the OS facilities the
engine talks to (process table, capture file, the external interceptor)
as explicit state threaded through the functions that the Python methods
mutate through `self` and the filesystem.
-/

namespace HotkeyTrainer

/-- Lexicographic comparison of character lists, mirroring Python's
string `<=` used by `list.sort()` in `TrainerCore.normalize_keys`. -/
def lexLe : List Char → List Char → Bool
  | [], _ => true
  | _ :: _, [] => false
  | a :: as, b :: bs => if a < b then true else if b < a then false else lexLe as bs

/-- Whitespace-strip from both ends, mirroring Python `str.strip()`. -/
def stripS (l : List Char) : List Char :=
  ((l.dropWhile Char.isWhitespace).reverse.dropWhile Char.isWhitespace).reverse

/-- Lower-casing, mirroring Python `str.lower()` on ASCII data. -/
def toLowerS (l : List Char) : List Char := l.map Char.toLower

/-- Split on a separator character, mirroring Python `str.split(sep)`
for a one-character separator. -/
def splitOnCharS (sep : Char) : List Char → List (List Char)
  | [] => [[]]
  | c :: rest =>
    match splitOnCharS sep rest with
    | [] => [[]]
    | l :: ls => if c = sep then [] :: l :: ls else (c :: l) :: ls

/-- Join with a separator character, mirroring Python `sep.join(parts)`. -/
def joinSep (sep : Char) : List (List Char) → List Char
  | [] => []
  | [x] => x
  | x :: y :: rest => x ++ sep :: joinSep sep (y :: rest)

/-- The fixed modifier vocabulary of `TrainerCore.normalize_keys`
(`['cmd', 'shift', 'alt', 'ctrl', 'fn']`). -/
def MODIFIER_VOCAB : List (List Char) :=
  ["cmd".toList, "shift".toList, "alt".toList, "ctrl".toList, "fn".toList]

/-- The recognized prefix segments kept by `normalize_keys`:
`for part in parts[:-1]: if part in [...]: modifiers.append(part)`. -/
def keptModifiers (parts : List (List Char)) : List (List Char) :=
  parts.filter (fun p => decide (p ∈ MODIFIER_VOCAB))

/-- `modifiers.sort()` of `normalize_keys`: ascending lexicographic sort. -/
def sortMods (mods : List (List Char)) : List (List Char) :=
  List.insertionSort (fun a b => lexLe a b = true) mods

/-- `TrainerCore.normalize_keys` (src/trainer_core.py lines 115-131):
if there is no `'+'`, return the stripped lower-cased token; otherwise
split on `'+'`, keep the recognized modifiers among all but the last
segment, sort them, and rejoin them before the main (last) segment. -/
def normalize_keys (keys : List Char) : List Char :=
  if keys.contains '+' = false then toLowerS (stripS keys)
  else
    let parts := splitOnCharS '+' (toLowerS (stripS keys))
    let main_key := parts.getLast?.getD []
    let modifiers := sortMods (keptModifiers parts.dropLast)
    if modifiers = [] then main_key
    else joinSep '+' modifiers ++ '+' :: main_key

example : normalize_keys "A".toList = "a".toList := by decide
example : normalize_keys "shift+cmd+n".toList = "cmd+shift+n".toList := by decide
example : normalize_keys "cmd+k cmd+s".toList = "cmd+s".toList := by decide
example : normalize_keys "foo+n".toList = "n".toList := by decide

/-! Order-theoretic facts about `lexLe`, needed to relate sorting to
permutations of the modifier list. -/

theorem lexLe_total : ∀ a b : List Char, lexLe a b = true ∨ lexLe b a = true := by
  intro a
  induction a with
  | nil => intro b; left; rfl
  | cons x xs ih =>
    intro b
    cases b with
    | nil => right; rfl
    | cons y ys =>
      rcases lt_trichotomy x y with h | h | h
      · left; simp [lexLe, h]
      · subst h
        rcases ih ys with h2 | h2
        · left; simp [lexLe, lt_irrefl, h2]
        · right; simp [lexLe, lt_irrefl, h2]
      · right; simp [lexLe, h]

theorem lexLe_trans : ∀ a b c : List Char,
    lexLe a b = true → lexLe b c = true → lexLe a c = true := by
  intro a
  induction a with
  | nil => intro b c _ _; rfl
  | cons x xs ih =>
    intro b c hab hbc
    cases b with
    | nil => simp [lexLe] at hab
    | cons y ys =>
      cases c with
      | nil => simp [lexLe] at hbc
      | cons z zs =>
        simp only [lexLe] at hab hbc ⊢
        rcases lt_trichotomy y z with hyz | hyz | hyz
        · rcases lt_trichotomy x y with hxy | hxy | hxy
          · simp [hxy.trans hyz]
          · subst hxy; simp [hyz]
          · simp [asymm hxy, hxy] at hab
        · subst hyz
          rcases lt_trichotomy x y with hxy | hxy | hxy
          · simp [hxy]
          · subst hxy
            simp [lt_irrefl] at hab hbc ⊢
            exact ih _ _ hab hbc
          · simp [asymm hxy, hxy] at hab
        · simp [asymm hyz, hyz] at hbc

theorem lexLe_antisymm : ∀ a b : List Char,
    lexLe a b = true → lexLe b a = true → a = b := by
  intro a
  induction a with
  | nil =>
    intro b _ hba
    cases b with
    | nil => rfl
    | cons y ys => simp [lexLe] at hba
  | cons x xs ih =>
    intro b hab hba
    cases b with
    | nil => simp [lexLe] at hab
    | cons y ys =>
      simp only [lexLe] at hab hba
      rcases lt_trichotomy x y with h | h | h
      · simp [asymm h, h] at hba
      · subst h
        simp [lt_irrefl] at hab hba
        exact congrArg (x :: ·) (ih _ hab hba)
      · simp [asymm h, h] at hab

instance : IsTotal (List Char) (fun a b => lexLe a b = true) := ⟨lexLe_total⟩

instance : IsTrans (List Char) (fun a b => lexLe a b = true) := ⟨lexLe_trans⟩

instance : IsAntisymm (List Char) (fun a b => lexLe a b = true) := ⟨lexLe_antisymm⟩

/-- Sorting the kept modifiers depends only on the multiset of segments:
permuting the prefix segments of a key combination cannot change the
sorted modifier list. -/
theorem sortMods_keptModifiers_perm (l r : List (List Char)) (h : l.Perm r) :
    sortMods (keptModifiers l) = sortMods (keptModifiers r) := by
  unfold sortMods keptModifiers
  refine List.eq_of_perm_of_sorted ?_
    (List.sorted_insertionSort _ _) (List.sorted_insertionSort _ _)
  exact (List.perm_insertionSort _ _).trans
    ((h.filter _).trans (List.perm_insertionSort _ _).symm)

/-! CaptureChannel: `TrainerCore.clear_capture_file` and
`TrainerCore.read_new_keys` (src/trainer_core.py lines 86-113).
The capture file is modelled as `Option (List Char)` (`none` = the file
does not exist); `last_position` is the read cursor. The model covers
the non-raising filesystem paths (the `except` clauses only map OS
errors to the same neutral results). -/

/-- The line post-processing of `read_new_keys`:
`[line.strip() for line in new_content.split('\n') if line.strip()]`. -/
def stripLines (content : List Char) : List (List Char) :=
  ((splitOnCharS '\n' content).map stripS).filter (fun l => l ≠ [])

/-- State visible to the capture channel: the capture file's bytes (or
`none` when absent) and the channel's `last_position` cursor. -/
structure ChannelState where
  file : Option (List Char)
  last_position : Nat
deriving DecidableEq

/-- `TrainerCore.is_trainer_active`: existence of the capture file. -/
def channel_is_active (s : ChannelState) : Bool := s.file.isSome

/-- `TrainerCore.clear_capture_file`: never touches the file's bytes;
records the current file size (0 when the file is absent) as the new
read cursor. -/
def clear_capture_file (s : ChannelState) : ChannelState :=
  match s.file with
  | some c => { s with last_position := c.length }
  | none => { s with last_position := 0 }

/-- `TrainerCore.read_new_keys`: `[]` when the file is absent; otherwise
seek to `last_position`, read the rest, and if anything was read,
advance the cursor to end-of-file and return the stripped non-empty
lines. -/
def read_new_keys (s : ChannelState) : List (List Char) × ChannelState :=
  match s.file with
  | none => ([], s)
  | some c =>
    let new_content := c.drop s.last_position
    if new_content = [] then ([], s)
    else (stripLines new_content, { s with last_position := c.length })

example :
    (read_new_keys ⟨some "cmd+a\ncmd+b\n".toList, 0⟩).1
      = ["cmd+a".toList, "cmd+b".toList] := by decide
example :
    (read_new_keys (clear_capture_file ⟨some "cmd+a\ncmd+b\n".toList, 0⟩)).1 = [] := by
  decide

/-! PracticeStateMachine: `ShortcutQuiz._practice_loop`
(src/quiz_system.py lines 341-386). A run of the loop on one shortcut is
modelled by folding the per-token branch logic over the stream of
captured tokens, each paired with the `time.time()` value observed when
it is handled. Rational timestamps stand in for Python floats (only
order and subtraction against the 1-second window are ever used). -/

/-- `ShortcutQuiz.SKIP_EXIT_KEYS` (src/quiz_system.py line 84). -/
def SKIP_EXIT_KEYS : List (List Char) :=
  ["`".toList, "backtick".toList, "grave".toList]

/-- The emergency combos checked inline in `_practice_loop`
(src/quiz_system.py line 372), same list as `EMERGENCY_EXIT_KEYS`. -/
def EMERGENCY_EXIT_KEYS : List (List Char) :=
  ["ctrl+c".toList, "cmd+q".toList, "cmd+.".toList]

/-- Terminal outcome of one `_practice_loop` run: the strings
`'completed'`, `'skipped'`, `'exit'` it returns. -/
inductive Outcome
  | completed
  | skipped
  | exited
deriving DecidableEq

/-- The local state of one `_practice_loop` run: `attempts`,
`consecutive_backticks` and `last_backtick_time` (initialized `0`). -/
structure LoopState where
  attempts : Nat
  consecutive_backticks : Nat
  last_backtick_time : ℤ
deriving DecidableEq

/-- One iteration of the `for key in keys` body of `_practice_loop`:
`Except.error o` means the loop returns with outcome `o`, `Except.ok`
carries the updated local state. `expected` is the precomputed
`normalize_keys(shortcut.keys)`. -/
def process_key (expected : List Char) (s : LoopState) (key : List Char) (now : ℤ) :
    Except Outcome LoopState :=
  if toLowerS key ∈ SKIP_EXIT_KEYS ∨ key = "`".toList then
    let cb := if now - s.last_backtick_time > 1 then 0 else s.consecutive_backticks
    let cb := cb + 1
    if cb ≥ 2 then Except.error Outcome.exited
    else Except.error Outcome.skipped
  else if normalize_keys key ∈ EMERGENCY_EXIT_KEYS then Except.error Outcome.exited
  else
    let s := { s with consecutive_backticks := 0, attempts := s.attempts + 1 }
    if normalize_keys key = expected then Except.error Outcome.completed
    else Except.ok s

/-- Folding `process_key` over the timestamped token stream of one run.
`none` means the loop is still polling for input. -/
def practice_tokens (expected : List Char) (s : LoopState) :
    List (List Char × ℤ) → Option Outcome × LoopState
  | [] => (none, s)
  | (k, t) :: rest =>
    match process_key expected s k t with
    | Except.error o => (some o, s)
    | Except.ok s' => practice_tokens expected s' rest

/-- One full `_practice_loop` run on a shortcut: local counters start at
zero, the expected form is `normalize_keys(shortcut.keys)`. -/
def practice_loop (shortcutKeys : List Char) (tokens : List (List Char × ℤ)) :
    Option Outcome × LoopState :=
  practice_tokens (normalize_keys shortcutKeys) ⟨0, 0, 0⟩ tokens

/-! InterceptorSupervisor: `InterceptorManager.start`
(src/trainer_core.py lines 189-232). The OS facts the method consults
are gathered in an environment record. -/

/-- Environment `InterceptorManager.start` observes: the first pid
`pgrep -f key-interceptor` would report (`none` when no process
matches), the pid `Popen` would assign, whether `poll()` still returns
`None` after the fixed 1-second wait, and whether `Popen` raises. -/
structure InterceptorEnv where
  pgrepPid : Option Nat
  spawnPid : Nat
  spawnAlive : Bool
  spawnRaises : Bool
deriving DecidableEq

/-- `InterceptorManager.is_running`: pgrep found a match. -/
def is_running (e : InterceptorEnv) : Bool := e.pgrepPid.isSome

/-- `InterceptorManager.get_pid`: first pid pgrep printed, if any. -/
def get_pid (e : InterceptorEnv) : Option Nat := e.pgrepPid

/-- Result of `InterceptorManager.start`: the `(success, pid)` return
value, plus whether a new process was spawned in the call. -/
structure StartResult where
  success : Bool
  pid : Option Nat
  spawnedNew : Bool
deriving DecidableEq

/-- `InterceptorManager.start`: reuse a running process; otherwise spawn,
wait the fixed interval, and report failure when the child already
exited (or `Popen` raised). -/
def start (e : InterceptorEnv) : StartResult :=
  if is_running e then ⟨true, get_pid e, false⟩
  else if e.spawnRaises then ⟨false, none, false⟩
  else if e.spawnAlive then ⟨true, some e.spawnPid, true⟩
  else ⟨false, none, true⟩

/-! SessionAggregator statistics: `ShortcutQuiz._handle_success`
(src/quiz_system.py lines 388-407) and `ShortcutQuiz._update_stats`
(lines 508-513). `by_category` / `by_difficulty` are modelled as total
count functions with the key set of `by_category` made explicit (the
code guards the category bump with `in`; the difficulty bump at keys
the dict holds is a pointwise increment). -/

/-- `self.stats` as created by `_reset_stats`. -/
structure SessionStats where
  completed : Nat
  skipped : Nat
  attempts : List Nat
  by_category : String → Nat
  category_keys : List String
  by_difficulty : Nat → Nat

/-- `ShortcutQuiz._reset_stats`: all counters zero, no attempts. -/
def reset_stats (cats : List String) : SessionStats :=
  ⟨0, 0, [], fun _ => 0, cats, fun _ => 0⟩

/-- What one `practice_shortcut` call yields to the session loop:
`completed` carries the attempt count and the shortcut's category and
difficulty that `_handle_success` folds into the stats. -/
inductive QuizResult
  | completed (attemptCount : Nat) (cat : String) (diff : Nat)
  | skipped
  | exited
deriving DecidableEq

/-- `ShortcutQuiz._handle_success`: append the attempt count, bump the
category counter when the category is a known key, bump the difficulty
counter. -/
def handle_success (s : SessionStats) (attemptCount : Nat) (cat : String) (diff : Nat) :
    SessionStats :=
  { s with
    attempts := s.attempts ++ [attemptCount]
    by_category :=
      if cat ∈ s.category_keys then
        fun c => if c = cat then s.by_category c + 1 else s.by_category c
      else s.by_category
    by_difficulty := fun d => if d = diff then s.by_difficulty d + 1 else s.by_difficulty d }

/-- One iteration boundary of the `run_quiz` session loop: the effect of
`practice_shortcut` (which runs `_handle_success` on success) followed
by `_update_stats` on the returned result string. -/
def practice_and_update (s : SessionStats) (r : QuizResult) : SessionStats :=
  match r with
  | QuizResult.completed a c d =>
    let s' := handle_success s a c d
    { s' with completed := s'.completed + 1 }
  | QuizResult.skipped => { s with skipped := s.skipped + 1 }
  | QuizResult.exited => s

/-! Session driver: `ShortcutQuiz.run_quiz` (src/quiz_system.py lines
450-473) and `main` (lines 644-673). The observable world is the
existence of the capture file. Per the interceptor contract (it toggles
capturing, hence the capture file, on the synthesized hotkey) the model
gives `send_toggle_shortcut` its documented ideal effect and lets the
bounded retry polling of `ensure_trainer_on` / `ensure_trainer_off`
succeed at the first poll; any divergence proved below therefore does
not hinge on the racy handshake. -/

/-- The observable world of a session: whether the capture file exists,
i.e. whether keystrokes are being captured. -/
structure World where
  captureFileExists : Bool
deriving DecidableEq

/-- `TrainerCore.is_trainer_active` at the session level. -/
def is_trainer_active (w : World) : Bool := w.captureFileExists

/-- `TrainerCore.send_toggle_shortcut` with the interceptor responding
as contracted: capturing (and the capture file) toggles. -/
def send_toggle_shortcut (w : World) : World := ⟨!w.captureFileExists⟩

/-- `TrainerCore.ensure_trainer_on`: no-op when active, otherwise send
the toggle and poll (the responsive interceptor answers on the first
poll). Returns (success, world). -/
def ensure_trainer_on (w : World) : Bool × World :=
  if is_trainer_active w then (true, w)
  else
    let w' := send_toggle_shortcut w
    (is_trainer_active w', w')

/-- `TrainerCore.ensure_trainer_off`: dual of `ensure_trainer_on`. -/
def ensure_trainer_off (w : World) : Bool × World :=
  if is_trainer_active w = false then (true, w)
  else
    let w' := send_toggle_shortcut w
    (is_trainer_active w' = false, w')

/-- How each shortcut of the session plan ends: the result string of
`practice_shortcut`, or `raises` for an exception or interrupt
(e.g. `KeyboardInterrupt` during the poll sleep) escaping mid-shortcut. -/
inductive ShortcutEnd
  | completed
  | skipped
  | exited
  | raises
deriving DecidableEq

/-- The `for i, shortcut in enumerate(...)` loop of `run_quiz`:
practicing never changes capture-file existence (prompts only move the
read cursor); `exited` breaks, `raises` propagates the exception with
the world as it stands. -/
def practice_sequence (w : World) : List ShortcutEnd → Except World World
  | [] => Except.ok w
  | r :: rest =>
    match r with
    | ShortcutEnd.raises => Except.error w
    | ShortcutEnd.exited => Except.ok w
    | _ => practice_sequence w rest

/-- `ShortcutQuiz.run_quiz`: ensure capturing off, activate, run the
practice loop, and (only on the non-raising path — there is no
`try`/`finally`) ensure capturing off again. A raised exception
propagates with no cleanup. -/
def run_quiz (w : World) (plan : List ShortcutEnd) : Except World World :=
  let w1 := (ensure_trainer_off w).2
  let w2 := (ensure_trainer_on w1).2
  match practice_sequence w2 plan with
  | Except.ok w3 => Except.ok (ensure_trainer_off w3).2
  | Except.error w3 => Except.error w3

/-- `main` (src/quiz_system.py lines 644-673): the `except` handlers
print messages and call `sys.exit`, touching neither the interceptor
nor the capture file; the world at the moment of the exception is the
world the process exits with. -/
def main_world (w : World) (plan : List ShortcutEnd) : World :=
  match run_quiz w plan with
  | Except.ok w' => w'
  | Except.error w' => w'

/-! Supporting lemmas about the practice loop: the double-backtick exit
branch is unreachable, because every path that keeps the loop running
leaves `consecutive_backticks = 0` and a backtick token then returns
`skipped` at once. -/

theorem process_key_no_exit (expected : List Char) (s : LoopState) (k : List Char) (t : ℤ)
    (hcb : s.consecutive_backticks = 0)
    (hk : normalize_keys k ∉ EMERGENCY_EXIT_KEYS) :
    process_key expected s k t ≠ Except.error Outcome.exited := by
  unfold process_key
  by_cases hb : toLowerS k ∈ SKIP_EXIT_KEYS ∨ k = "`".toList
  · rw [if_pos hb]
    simp [hcb]
  · by_cases he : normalize_keys k ∈ EMERGENCY_EXIT_KEYS
    · exact absurd he hk
    · rw [if_neg hb, if_neg he]
      split <;> simp

theorem process_key_ok_state (expected : List Char) (s s' : LoopState) (k : List Char) (t : ℤ)
    (h : process_key expected s k t = Except.ok s') : s'.consecutive_backticks = 0 := by
  unfold process_key at h
  split at h
  · split at h <;> (dsimp only at h; split at h <;> exact Except.noConfusion h)
  · split at h
    · exact Except.noConfusion h
    · split at h
      · exact Except.noConfusion h
      · simp only [Except.ok.injEq] at h
        rw [← h]

theorem practice_tokens_no_exit (expected : List Char) :
    ∀ (tokens : List (List Char × ℤ)) (s : LoopState),
      s.consecutive_backticks = 0 →
      (∀ p ∈ tokens, normalize_keys p.1 ∉ EMERGENCY_EXIT_KEYS) →
      (practice_tokens expected s tokens).1 ≠ some Outcome.exited := by
  intro tokens
  induction tokens with
  | nil => intro s _ _; simp [practice_tokens]
  | cons kt rest ih =>
    intro s hcb hall
    obtain ⟨k, t⟩ := kt
    have hk : normalize_keys k ∉ EMERGENCY_EXIT_KEYS := hall (k, t) (by simp)
    cases hpk : process_key expected s k t with
    | error o =>
      have ho : o ≠ Outcome.exited := by
        intro hoe
        exact process_key_no_exit expected s k t hcb hk (hoe ▸ hpk)
      simp [practice_tokens, hpk, ho]
    | ok s' =>
      simp only [practice_tokens, hpk]
      exact ih s' (process_key_ok_state expected s s' k t hpk)
        (fun p hp => hall p (by simp [hp]))

/-- In one run of `_practice_loop`, no sequence of tokens free of the
emergency combos can ever produce the `'exit'` outcome: the first
backtick already returns `'skipped'`, so `consecutive_backticks` never
reaches 2. -/
theorem backtick_exit_unreachable (shortcutKeys : List Char)
    (tokens : List (List Char × ℤ))
    (h : ∀ p ∈ tokens, normalize_keys p.1 ∉ EMERGENCY_EXIT_KEYS) :
    (practice_loop shortcutKeys tokens).1 ≠ some Outcome.exited :=
  practice_tokens_no_exit _ tokens ⟨0, 0, 0⟩ rfl h

/-! The claims. -/

/-- C1: the claim says capturing is inactive after the session function
returns on every exit path, including exceptions and interrupts. The
code violates this: `run_quiz` has no `try`/`finally` around the
practice loop and `main`'s exception handlers never deactivate the
trainer, so an exception raised mid-session (first conjunct) leaves the
capture file in place and `isActive()` true — even though `main` prints
that the keyboard is back to normal. Only the non-raising paths
(second and third conjuncts) end with capturing inactive. -/
theorem claim_C1_interrupt_leaves_capture_active :
    is_trainer_active (main_world ⟨false⟩ [ShortcutEnd.raises]) = true ∧
    is_trainer_active (main_world ⟨false⟩
      [ShortcutEnd.completed, ShortcutEnd.skipped]) = false ∧
    is_trainer_active (main_world ⟨false⟩
      [ShortcutEnd.completed, ShortcutEnd.exited]) = false := by decide

/-- C2: the claim says a backtick pressed twice within 1 second yields
`Exited`. The code violates this: the first backtick press already
returns `'skipped'` and ends the run (so a double press within
1 second — first conjunct, both presses in the same poll batch at
instant 10 — yields `Skipped` with the second token never processed),
and the next run starts with a fresh zeroed counter, so the second
press again yields `Skipped` there (second conjunct), while the
instructions printed by the code promise that a double backtick exits.
Presses separated by more than 1 second also yield `Skipped` each time
(third conjunct), the only part of the claim the code meets. -/
theorem claim_C2_double_backtick_never_exits :
    (practice_loop "cmd+s".toList
      [("`".toList, 10), ("`".toList, 10)]).1 = some Outcome.skipped ∧
    (practice_loop "cmd+s".toList [("`".toList, 10)]).1 = some Outcome.skipped ∧
    (practice_loop "cmd+s".toList
      [("`".toList, 10), ("`".toList, 13)]).1 = some Outcome.skipped := by
  decide

/-- C3 counterexample: the claim says the chord `"cmd+k cmd+s"` matches
only a two-step input sequence. In the code, the single-step token
`"cmd+s"` (it contains no space, hence is one step) normalizes to the
same string as the whole chord, so it matches the chord on its own. -/
theorem claim_C3_counterexample :
    normalize_keys "cmd+s".toList = normalize_keys "cmd+k cmd+s".toList ∧
    ("cmd+s".toList).contains ' ' = false := by decide

/-- C3 (amended): `normalize_keys` never splits on spaces; the whole
chord string is treated as one token split on `'+'`. For
`"cmd+k cmd+s"` the non-final segments are `"cmd"` and `"k cmd"`, of
which only `"cmd"` is a recognized modifier, so the chord normalizes to
`"cmd+s"`; an input matches iff its normalization equals that, hence
`"cmd+k"` alone never matches but the single step `"cmd+s"` does. -/
theorem claim_C3_chord_collapsed :
    normalize_keys "cmd+k cmd+s".toList = "cmd+s".toList ∧
    normalize_keys "cmd+k".toList ≠ normalize_keys "cmd+k cmd+s".toList ∧
    normalize_keys "cmd+s".toList = normalize_keys "cmd+k cmd+s".toList := by decide

/-- C4: normalization is invariant under modifier order (the sorted kept
modifier list depends only on the multiset of prefix segments, first
conjunct) and letter case; `normalize("shift+cmd+n")` equals
`normalize("cmd+shift+n")`, both equal the canonical form
`"cmd+shift+n"` with the recognized modifiers sorted lexicographically
before the main key, and `normalize("A")` equals `normalize("a")`. -/
theorem claim_C4_normalize_invariance :
    (∀ l r : List (List Char), l.Perm r →
        sortMods (keptModifiers l) = sortMods (keptModifiers r)) ∧
    normalize_keys "shift+cmd+n".toList = normalize_keys "cmd+shift+n".toList ∧
    normalize_keys "shift+cmd+n".toList = "cmd+shift+n".toList ∧
    normalize_keys "A".toList = normalize_keys "a".toList :=
  ⟨sortMods_keptModifiers_perm, by decide, by decide, by decide⟩

/-- C4 witness: the permutation hypothesis discharged at the concrete
prefix segment lists of `"shift+cmd+n"` and `"cmd+shift+n"`. -/
theorem claim_C4_witness :
    (["shift".toList, "cmd".toList] : List (List Char)).Perm
        ["cmd".toList, "shift".toList] ∧
    sortMods (keptModifiers ["shift".toList, "cmd".toList])
      = sortMods (keptModifiers ["cmd".toList, "shift".toList]) :=
  ⟨by decide, claim_C4_normalize_invariance.1 _ _ (by decide)⟩

/-- C5 counterexample: the claim says that with a capture file already
containing two lines, `resetCursor()` followed by one `readNewKeys()`
returns both lines. In the code `clear_capture_file` moves the cursor
to the current end of file, so the read returns the empty list. -/
theorem claim_C5_counterexample :
    (read_new_keys (clear_capture_file ⟨some "cmd+a\ncmd+b\n".toList, 0⟩)).1 = [] ∧
    ([] : List (List Char)) ≠ ["cmd+a".toList, "cmd+b".toList] := by decide

/-- C5 (amended): with the cursor at the start of a capture file
containing two lines (a freshly initialized channel), one
`readNewKeys()` returns both lines in order and a second immediate
`readNewKeys()` with no new appended bytes returns the empty sequence;
after `resetCursor()` the next `readNewKeys()` instead returns the
empty sequence, because the cursor was moved to end-of-file. -/
theorem claim_C5_fresh_cursor_reads_both :
    (read_new_keys ⟨some "cmd+a\ncmd+b\n".toList, 0⟩).1
      = ["cmd+a".toList, "cmd+b".toList] ∧
    (read_new_keys (read_new_keys ⟨some "cmd+a\ncmd+b\n".toList, 0⟩).2).1 = [] ∧
    (read_new_keys (clear_capture_file ⟨some "cmd+a\ncmd+b\n".toList, 0⟩)).1 = [] := by
  decide

/-- C6: `resetCursor` (`clear_capture_file`) never truncates, clears or
rewrites the capture file's bytes — it only records the file's current
size as the read cursor — so a subsequent `readNewKeys` returns exactly
the content appended after the call; and `readNewKeys` on a
non-existent capture file returns the empty sequence without error. -/
theorem claim_C6_reset_never_truncates :
    (∀ s : ChannelState, (clear_capture_file s).file = s.file) ∧
    (∀ (c : List Char) (pos : Nat),
        (clear_capture_file ⟨some c, pos⟩).last_position = c.length) ∧
    (∀ (c a : List Char) (pos : Nat),
        (read_new_keys ⟨some (c ++ a),
            (clear_capture_file ⟨some c, pos⟩).last_position⟩).1 = stripLines a) ∧
    (∀ pos : Nat, read_new_keys ⟨none, pos⟩ = ([], ⟨none, pos⟩)) := by
  refine ⟨?_, ?_, ?_, ?_⟩
  · intro s
    obtain ⟨f, p⟩ := s
    cases f <;> rfl
  · intro c pos
    rfl
  · intro c a pos
    show (read_new_keys ⟨some (c ++ a), c.length⟩).1 = stripLines a
    by_cases ha : a = []
    · subst ha
      simp [read_new_keys, stripLines, splitOnCharS, stripS]
    · simp [read_new_keys, List.drop_left, ha]
  · intro pos
    rfl

/-- C7: for every token containing `'+'`, `normalize_keys` keeps exactly
the non-final segments in the fixed vocabulary and silently discards
every other non-final segment — inserting an unrecognized segment
anywhere among the prefix segments leaves the kept-modifier list
unchanged (first conjunct), every kept segment is a vocabulary word
occurring among the segments (second conjunct) — so a token whose only
prefix segment is unrecognized normalizes to its bare main key:
`normalize("foo+n") = normalize("n") = "n"`. -/
theorem claim_C7_unrecognized_segments_dropped :
    (∀ (l r : List (List Char)) (x : List Char), x ∉ MODIFIER_VOCAB →
        keptModifiers (l ++ x :: r) = keptModifiers (l ++ r)) ∧
    (∀ (l : List (List Char)) (x : List Char), x ∈ keptModifiers l →
        x ∈ MODIFIER_VOCAB ∧ x ∈ l) ∧
    normalize_keys "foo+n".toList = normalize_keys "n".toList ∧
    normalize_keys "foo+n".toList = "n".toList := by
  refine ⟨?_, ?_, by decide, by decide⟩
  · intro l r x hx
    unfold keptModifiers
    rw [List.filter_append, List.filter_append, List.filter_cons_of_neg]
    simpa using hx
  · intro l x hx
    unfold keptModifiers at hx
    refine ⟨?_, List.mem_of_mem_filter hx⟩
    have := List.of_mem_filter hx
    simpa using this

/-- C7 witness: the first conjunct's hypothesis discharged at the
unrecognized segment `"foo"`. -/
theorem claim_C7_witness :
    ("foo".toList ∉ MODIFIER_VOCAB) ∧
    keptModifiers ([] ++ "foo".toList :: [])
      = keptModifiers ([] ++ ([] : List (List Char))) :=
  ⟨by decide, claim_C7_unrecognized_segments_dropped.1 [] [] "foo".toList (by decide)⟩

/-- C8: if a process matching the interceptor binary name is already
running, `start` returns success with that process's pid and spawns
nothing; otherwise it spawns the binary, waits the fixed interval, and
returns failure with no pid when the spawned process has already exited
by then (and success with the child's pid when it is still alive). -/
theorem claim_C8_start_reuses_or_spawns (e : InterceptorEnv) (p : Nat) :
    (e.pgrepPid = some p → start e = ⟨true, some p, false⟩) ∧
    (e.pgrepPid = none → e.spawnRaises = false → e.spawnAlive = false →
        start e = ⟨false, none, true⟩) ∧
    (e.pgrepPid = none → e.spawnRaises = false → e.spawnAlive = true →
        start e = ⟨true, some e.spawnPid, true⟩) := by
  refine ⟨?_, ?_, ?_⟩
  · intro h
    simp [start, is_running, get_pid, h]
  · intro h1 h2 h3
    simp [start, is_running, get_pid, h1, h2, h3]
  · intro h1 h2 h3
    simp [start, is_running, get_pid, h1, h2, h3]

/-- C8 witness: the already-running case discharged at pid 42, and the
early-exit case discharged at a child that died during the wait. -/
theorem claim_C8_witness :
    start ⟨some 42, 7, true, false⟩ = ⟨true, some 42, false⟩ ∧
    start ⟨none, 7, false, false⟩ = ⟨false, none, true⟩ :=
  ⟨(claim_C8_start_reuses_or_spawns ⟨some 42, 7, true, false⟩ 42).1 rfl,
   (claim_C8_start_reuses_or_spawns ⟨none, 7, false, false⟩ 0).2.1 rfl rfl rfl⟩

theorem stats_inv_step (s : SessionStats) (r : QuizResult)
    (h : s.completed = s.attempts.length) :
    (practice_and_update s r).completed = (practice_and_update s r).attempts.length := by
  cases r <;> simp [practice_and_update, handle_success, h]

theorem stats_inv_fold (results : List QuizResult) :
    ∀ s : SessionStats, s.completed = s.attempts.length →
      (results.foldl practice_and_update s).completed
        = (results.foldl practice_and_update s).attempts.length := by
  induction results with
  | nil => intro s h; exact h
  | cons r rest ih => intro s h; exact ih _ (stats_inv_step s r h)

/-- C9: at every iteration boundary of the session loop (after
`_update_stats` folded in one result) `stats['completed']` equals
`len(stats['attempts'])` (first conjunct, for every prefix of results
folded from the freshly reset stats); exactly one attempt entry is
appended per completed shortcut (third conjunct), while a skipped or
exited shortcut appends nothing to `attempts` and leaves `by_category`
and `by_difficulty` unchanged (second conjunct). -/
theorem claim_C9_completed_counts_attempt_entries :
    (∀ (cats : List String) (results : List QuizResult),
        (results.foldl practice_and_update (reset_stats cats)).completed
          = (results.foldl practice_and_update (reset_stats cats)).attempts.length) ∧
    (∀ s : SessionStats,
        (practice_and_update s QuizResult.skipped).attempts = s.attempts ∧
        (practice_and_update s QuizResult.skipped).by_category = s.by_category ∧
        (practice_and_update s QuizResult.skipped).by_difficulty = s.by_difficulty ∧
        practice_and_update s QuizResult.exited = s) ∧
    (∀ (s : SessionStats) (a : Nat) (c : String) (d : Nat),
        (practice_and_update s (QuizResult.completed a c d)).attempts
          = s.attempts ++ [a]) := by
  refine ⟨?_, ?_, ?_⟩
  · intro cats results
    exact stats_inv_fold results (reset_stats cats) rfl
  · intro s
    refine ⟨rfl, rfl, rfl, rfl⟩
  · intro s a c d
    rfl

/-- C10: across consecutive `readNewKeys` calls with no intervening
`resetCursor` on an append-only capture file, the cursor never moves
backwards (first conjunct), each call returns exactly the stripped
lines of the bytes past the previous cursor position (second conjunct),
a call that read something advances the cursor to the position after
what it read, the end of file (third conjunct), and the next call on
the file extended by `a` then returns only the freshly appended bytes,
so no line is returned by more than one call (fourth conjunct). -/
theorem claim_C10_cursor_monotone_no_rereads (c a : List Char) (pos : Nat) :
    pos ≤ ((read_new_keys ⟨some c, pos⟩).2).last_position ∧
    (read_new_keys ⟨some c, pos⟩).1 = stripLines (c.drop pos) ∧
    (c.drop pos ≠ [] →
        ((read_new_keys ⟨some c, pos⟩).2).last_position = c.length) ∧
    (c.drop pos ≠ [] →
        (read_new_keys ⟨some (c ++ a),
            ((read_new_keys ⟨some c, pos⟩).2).last_position⟩).1 = stripLines a) := by
  by_cases h : c.drop pos = []
  · refine ⟨?_, ?_, fun hc => absurd h hc, fun hc => absurd h hc⟩
    · simp [read_new_keys, h]
    · simp [read_new_keys, h, stripLines, splitOnCharS, stripS]
  · have hlt : pos < c.length := by
      by_contra hge
      exact h (List.drop_eq_nil_of_le (le_of_not_lt hge))
    refine ⟨?_, ?_, ?_, ?_⟩
    · simp [read_new_keys, h]
      exact le_of_lt hlt
    · simp [read_new_keys, h]
    · intro _
      simp [read_new_keys, h]
    · intro _
      have h2 : ((read_new_keys ⟨some c, pos⟩).2).last_position = c.length := by
        simp [read_new_keys, h]
      rw [h2]
      by_cases ha : a = []
      · subst ha
        simp [read_new_keys, stripLines, splitOnCharS, stripS]
      · simp [read_new_keys, List.drop_left, ha]

/-- C10 witness: the append hypothesis discharged at the concrete file
`"x\n"` extended by `"y\n"` with the cursor initially at 0. -/
theorem claim_C10_witness :
    (("x\n".toList : List Char).drop 0 ≠ []) ∧
    (read_new_keys ⟨some ("x\n".toList ++ "y\n".toList),
        ((read_new_keys ⟨some "x\n".toList, 0⟩).2).last_position⟩).1
      = stripLines "y\n".toList :=
  ⟨by decide,
   (claim_C10_cursor_monotone_no_rereads "x\n".toList "y\n".toList 0).2.2.2 (by decide)⟩

end HotkeyTrainer
